import Mathlib

/-!
Shallow embedding of the FinLens health-scoring and aggregation logic
(`src/frontend/src/services/dataService.ts`) together with the Lambda
optimization analyzer modelled from the specification.

JavaScript/JSON values reaching these functions come from `response.json()`
(or from objects the code itself builds), so every number is a finite IEEE
double; we model numbers as exact rationals (`ℚ`).  JavaScript's
`Number(string)` conversion is kept abstract as a `parseNum` parameter:
`some q` models a finite parse result, `none` models `NaN` or `±Infinity`
(the code only consumes it through `Number.isFinite` guards).
-/

/-- A JSON/JavaScript runtime value as seen by `dataService.ts`. -/
inductive JSValue where
  | null : JSValue
  | undefined : JSValue
  | bool : Bool → JSValue
  | num : ℚ → JSValue
  | str : String → JSValue
  | arr : List JSValue → JSValue
  | obj : List (String × JSValue) → JSValue

/-- JavaScript property access `o[k]`: `undefined` on a missing key or a
non-object receiver (all receivers in the embedded code are guarded against
`null`/`undefined`, where JavaScript would throw). -/
def getField (v : JSValue) (key : String) : JSValue :=
  match v with
  | .obj fields => (fields.lookup key).getD .undefined
  | _ => .undefined

/-- JavaScript truthiness test (negated): `!v` for the values representable
in our model (`NaN` cannot come out of JSON). -/
def jsFalsy : JSValue → Bool
  | .undefined => true
  | .null => true
  | .bool b => !b
  | .num q => q = 0
  | .str s => s = ""
  | .arr _ => false
  | .obj _ => false

/-- `Math.round` on a finite double: round half toward positive infinity. -/
def jsRound (q : ℚ) : ℚ := ((⌊q + 1/2⌋ : ℤ) : ℚ)

/-- `status.toLowerCase()`: per-character lowercasing (`Char.toLower` is the
A–Z mapping, which agrees with JavaScript on the ASCII statuses this code
compares against), written as a structural map over the character list. -/
def jsToLower (s : String) : String := ⟨s.data.map Char.toLower⟩

/-- `normalizeScanStatus` from `dataService.ts` (lines 377–386): non-strings
normalize to `"failed"`, strings are lowercased and matched against the three
recognized statuses, anything else is `"failed"`. -/
def normalizeScanStatus (status : JSValue) : String :=
  match status with
  | .str s =>
    let normalized := jsToLower s
    if normalized = "success" then "success"
    else if normalized = "failed" then "failed"
    else if normalized = "partial" then "partial"
    else "failed"
  | _ => "failed"

/-- `getNumericValue` from `dataService.ts` (lines 407–416): numbers pass
through, strings go through `Number(...)` kept abstract as `parseNum`
(`none` = non-finite), everything else is `0`. -/
def getNumericValue (parseNum : String → Option ℚ) (value : JSValue) : ℚ :=
  match value with
  | .num q => q
  | .str s => (parseNum s).getD 0
  | _ => 0

/-- `asNumberRecord` from `dataService.ts`: keep the numeric-valued entries of
a plain object; `none` when the input is not a plain object or no entry is
numeric. -/
def asNumberRecord (value : JSValue) : Option (List (String × ℚ)) :=
  match value with
  | .obj fields =>
    let numeric := fields.filterMap fun p =>
      match p.2 with
      | .num q => some (p.1, q)
      | _ => none
    if numeric.isEmpty then none else some numeric
  | _ => none

/-- Lookup in an extracted number record, modelling `dist[key] ?? 0`. -/
def lookupQ (dist : List (String × ℚ)) (key : String) : ℚ :=
  (dist.lookup key).getD 0

/-- `typeof summary.resource_count === 'number' ? summary.resource_count : 0`. -/
def resourceCountOf (summary : JSValue) : ℚ :=
  match getField summary "resource_count" with
  | .num q => q
  | _ => 0

/-- Result record of `calculateServiceHealth`. -/
structure HealthResult where
  healthPercent : ℚ
  scanStatus : String
deriving DecidableEq

/-- The `switch (serviceName)` body of `calculateServiceHealth`
(`dataService.ts` lines 527–600): starting from `healthScore = 100` and the
status derived from the normalized declared status, each case recomputes the
pair from the service-specific facts in `summary`. -/
def healthSwitch (parseNum : String → Option ℚ) (serviceName : String)
    (summary : JSValue) (resourceCount : ℚ) (normalizedStatus : String) :
    ℚ × String :=
  let scanStatus : String := if normalizedStatus = "partial" then "partial" else "success"
  if serviceName = "ec2" then
    match asNumberRecord (getField summary "state_distribution") with
    | some dist =>
      let running := lookupQ dist "running"
      let stopped := lookupQ dist "stopped"
      let terminated := lookupQ dist "terminated"
      let h1 := if resourceCount > 0 then jsRound (running / resourceCount * 100) else 0
      let st := if stopped > 0 then "partial" else scanStatus
      let h2 := if terminated > 0 then max 0 (h1 - 20) else h1
      (h2, st)
    | none => (100, scanStatus)
  else if serviceName = "rds" then
    match asNumberRecord (getField summary "status_distribution") with
    | some dist =>
      let available := lookupQ dist "available"
      let h := if resourceCount > 0 then jsRound (available / resourceCount * 100) else 0
      let st := if available < resourceCount then "partial" else scanStatus
      (h, st)
    | none => (100, scanStatus)
  else if serviceName = "cloudtrail" then
    let loggingEnabled := getNumericValue parseNum (getField summary "logging_enabled")
    let totalTrails := getNumericValue parseNum (getField summary "total_trails")
    if totalTrails = 0 then (0, "failed")
    else
      let h := jsRound (loggingEnabled / totalTrails * 100)
      let st := if loggingEnabled < totalTrails then "partial" else scanStatus
      (h, st)
  else if serviceName = "vpc" then
    match getField summary "is_default" with
    | .bool b => (if b then 70 else 100, if b then "partial" else scanStatus)
    | _ => (100, scanStatus)
  else if serviceName = "s3" then
    match getField summary "encryption_status" with
    | .obj fields =>
      let encrypted := getNumericValue parseNum (getField (.obj fields) "encrypted")
      let h := if resourceCount > 0 then jsRound (encrypted / resourceCount * 100) else 0
      let st := if encrypted < resourceCount then "partial" else scanStatus
      (h, st)
    | _ => (100, scanStatus)
  else
    if normalizedStatus = "success" then
      (if resourceCount > 0 then 95 else 100, scanStatus)
    else
      (75, "partial")

/-- Body of `calculateServiceHealth` for a non-null `serviceData`
(`dataService.ts` lines 508–605): a falsy `summary` scores 0/failed; a failed
normalized status or a zero resource count short-circuits (zero resources win
with 100/success); otherwise the service-specific switch runs and the health
score is clamped to `[0,100]`. -/
def calcWithData (parseNum : String → Option ℚ) (serviceName : String)
    (data : JSValue) : HealthResult :=
  let summary := getField data "summary"
  if jsFalsy summary then ⟨0, "failed"⟩
  else
    let resourceCount := resourceCountOf summary
    let normalizedStatus := normalizeScanStatus (getField summary "scan_status")
    if normalizedStatus = "failed" ∨ resourceCount = 0 then
      ⟨if resourceCount = 0 then 100 else 0,
       if resourceCount = 0 then "success" else "failed"⟩
    else
      let p := healthSwitch parseNum serviceName summary resourceCount normalizedStatus
      ⟨max 0 (min 100 p.1), p.2⟩

/-- `calculateServiceHealth` from `dataService.ts`: `none` models the `null`
service payload. -/
def calculateServiceHealth (parseNum : String → Option ℚ) (serviceName : String) :
    Option JSValue → HealthResult
  | none => ⟨0, "failed"⟩
  | some data => calcWithData parseNum serviceName data

/-- Nullish test used by `??` in `filterResourcesByRegion`. -/
def jsNullish : JSValue → Bool
  | .null => true
  | .undefined => true
  | _ => false

/-- `resource['region'] ?? resource['Region'] ?? resource['aws_region']`. -/
def regionOf (resource : JSValue) : JSValue :=
  let a := getField resource "region"
  if jsNullish a then
    let b := getField resource "Region"
    if jsNullish b then getField resource "aws_region" else b
  else a

/-- The filter callback of `filterResourcesByRegion`:
`typeof region === 'string' && region === regionCode`. -/
def matchesRegion (resource : JSValue) (regionCode : String) : Bool :=
  match regionOf resource with
  | .str s => s = regionCode
  | _ => false

/-- `filterResourcesByRegion` from `dataService.ts` (lines 418–429): `none`
models an `undefined` region argument, and the falsy test `!regionCode` also
catches the empty string. -/
def filterResourcesByRegion (resources : List JSValue) :
    Option String → List JSValue
  | none => resources
  | some regionCode =>
    if regionCode = "" ∨ resources.isEmpty then resources
    else
      let filtered := resources.filter fun r => matchesRegion r regionCode
      if filtered.isEmpty then resources else filtered

/-- The fixed category ordering hard-coded in `getServiceCategories`
(`dataService.ts` lines 259–274). -/
def categoryOrder : List String :=
  ["compute", "database", "general", "storage", "networking", "integration",
   "cost_management", "security", "monitoring", "devops_tools", "analytics",
   "migration_transfer", "management_governance", "ai_ml"]

/-- One element of the list `getServiceCategories` returns; `services` keeps
the names of the member services (the per-service model built around each name
plays no role in the ordering/omission claims). -/
structure ServiceCategoryR where
  key : String
  services : List String
  totalResources : ℚ
deriving DecidableEq

/-- The per-category body of `getServiceCategories` (`dataService.ts` lines
277–312): `services` models `data.services[account] || {}` (category name to
service-name list), `counts` models
`resourceCounts[account]?.[region]?.[category]?.[service] || 0`.  A category
with no declared services, or whose services all have a non-positive count,
yields `none` (the code returns `null` and later drops it with
`filter(Boolean)`). -/
def categoryEntry (services : String → List String)
    (counts : String → String → ℚ) (categoryName : String) :
    Option ServiceCategoryR :=
  let serviceNames := services categoryName
  if serviceNames.isEmpty then none
  else
    let servicesWithResources := serviceNames.filter fun s => counts categoryName s > 0
    if servicesWithResources.isEmpty then none
    else
      let total := servicesWithResources.foldl (fun acc s => acc + counts categoryName s) 0
      some ⟨categoryName, servicesWithResources, total⟩

/-- `getServiceCategories` (`dataService.ts` lines 248–322), its pure core:
map the fixed `categoryOrder`, drop the `null` entries. -/
def getServiceCategories (services : String → List String)
    (counts : String → String → ℚ) : List ServiceCategoryR :=
  categoryOrder.filterMap (categoryEntry services counts)

/-! ## Lambda optimization analyzer (modelled from the spec)

The backend analyzer that fills `optimization_summary` for the lambda service
is not part of `src/`; the repository only ships its TypeScript-facing
interfaces (`LambdaOptimization` in the lambda function card component and
`OptimizationSummary` in `LambdaOptimizationCard.tsx`) and the pages that
display the result.  The definitions below are modelled from spec §4.3. -/

/-- Modelled from the spec: the per-function input facts the analyzer
consumes (invocation/error metrics over the metrics window, memory
utilization, architecture/runtime eligibility, and monthly cost figures);
the concrete collection of these fields lives in the missing backend. -/
structure FnMetrics where
  invocations : ℚ
  errors : ℚ
  memoryUtilizationPercent : ℚ
  isBaselineArchitecture : Bool
  runtimeMigrationEligible : Bool
  monthlyCost : ℚ
  rightSizedMonthlyCost : ℚ

/-- Memory classification of a workload resource. -/
inductive MemoryStatus where
  | optimal : MemoryStatus
  | over_provisioned : MemoryStatus
  | under_provisioned : MemoryStatus
deriving DecidableEq

/-- Per-resource analysis result, matching the `LambdaOptimization`
interface shipped with the lambda function card component. -/
structure LambdaOptimization where
  is_idle : Bool
  invocations : ℚ
  error_rate : ℚ
  memory_status : MemoryStatus
  high_error_rate : Bool
  arm_candidate : Bool
  potential_savings : ℚ
  recommendations : List String
deriving DecidableEq

/-- Modelled from the spec: the analyzer absent from `src/` classifies each
function (spec §4.3): idle = zero invocations; error rate over the window with
a 5% cutoff; memory bands at 30%/80% utilization with idle resources exempt;
migration candidacy for non-idle, low-error, baseline-architecture functions
with an eligible runtime; savings as the sum of the idle, right-sizing and
20%-migration contributions; one fixed recommendation sentence per triggered
condition in a fixed order. -/
def analyzeFunction (f : FnMetrics) : LambdaOptimization :=
  let is_idle := f.invocations = 0
  let error_rate := if f.invocations > 0 then f.errors / f.invocations * 100 else 0
  let high_error_rate := error_rate > 5
  let memory_status :=
    if is_idle then MemoryStatus.optimal
    else if f.memoryUtilizationPercent < 30 then MemoryStatus.over_provisioned
    else if f.memoryUtilizationPercent > 80 then MemoryStatus.under_provisioned
    else MemoryStatus.optimal
  let arm_candidate :=
    f.isBaselineArchitecture && !is_idle && !high_error_rate && f.runtimeMigrationEligible
  let savings :=
    (if is_idle then f.monthlyCost else 0) +
    (if memory_status = MemoryStatus.over_provisioned then
      f.monthlyCost - f.rightSizedMonthlyCost else 0) +
    (if arm_candidate then f.monthlyCost * (20 / 100) else 0)
  let recommendations :=
    (if is_idle then ["Function is idle: consider removing it or its triggers"] else []) ++
    (if memory_status = MemoryStatus.over_provisioned then
      ["Memory is over-provisioned: reduce the allocation"] else []) ++
    (if memory_status = MemoryStatus.under_provisioned then
      ["Memory is under-provisioned: increase the allocation"] else []) ++
    (if high_error_rate then ["Error rate exceeds 5%: investigate failures"] else []) ++
    (if arm_candidate then ["Eligible for ARM/Graviton migration"] else [])
  { is_idle := is_idle
    invocations := f.invocations
    error_rate := error_rate
    memory_status := memory_status
    high_error_rate := high_error_rate
    arm_candidate := arm_candidate
    potential_savings := savings
    recommendations := recommendations }

/-- Per-service aggregate, matching the `OptimizationSummary` interface in
`LambdaOptimizationCard.tsx` (lines 5–13). -/
structure OptimizationSummary where
  total_functions : Nat
  idle_functions : Nat
  over_provisioned_memory : Nat
  under_provisioned_memory : Nat
  high_error_rate : Nat
  arm_migration_candidates : Nat
  potential_monthly_savings : ℚ
deriving DecidableEq

/-- The all-zero summary the aggregation starts from. -/
def emptySummary : OptimizationSummary := ⟨0, 0, 0, 0, 0, 0, 0⟩

/-- Modelled from the spec: fold one per-resource result into the running
service aggregate (spec §4.3: counts and `potential_savings` are summed across
all analyzed resources). -/
def addToSummary (acc : OptimizationSummary) (r : LambdaOptimization) :
    OptimizationSummary :=
  { total_functions := acc.total_functions + 1
    idle_functions := acc.idle_functions + (if r.is_idle then 1 else 0)
    over_provisioned_memory :=
      acc.over_provisioned_memory +
        (if r.memory_status = MemoryStatus.over_provisioned then 1 else 0)
    under_provisioned_memory :=
      acc.under_provisioned_memory +
        (if r.memory_status = MemoryStatus.under_provisioned then 1 else 0)
    high_error_rate := acc.high_error_rate + (if r.high_error_rate then 1 else 0)
    arm_migration_candidates :=
      acc.arm_migration_candidates + (if r.arm_candidate then 1 else 0)
    potential_monthly_savings := acc.potential_monthly_savings + r.potential_savings }

/-- Modelled from the spec: build the `OptimizationSummary` of a service by
folding the per-resource results. -/
def buildOptimizationSummary (results : List LambdaOptimization) :
    OptimizationSummary :=
  results.foldl addToSummary emptySummary

/-- Modelled from the spec: analyze every function of a workload (lambda)
service and aggregate, returning both the per-resource results and the
service summary. -/
def analyzeService (fns : List FnMetrics) :
    List LambdaOptimization × OptimizationSummary :=
  let results := fns.map analyzeFunction
  (results, buildOptimizationSummary results)

/-! ## Helper lemmas -/

lemma jsRound_int (q : ℚ) : ∃ n : ℤ, jsRound q = (n : ℚ) :=
  ⟨⌊q + 1/2⌋, rfl⟩

lemma jsRound_sub20_int (q : ℚ) : ∃ n : ℤ, max 0 (jsRound q - 20) = (n : ℚ) :=
  ⟨max 0 (⌊q + 1/2⌋ - 20), by unfold jsRound; push_cast; rfl⟩

lemma q100_int : ∃ n : ℤ, (100 : ℚ) = (n : ℚ) := ⟨100, by norm_num⟩

lemma q95_int : ∃ n : ℤ, (95 : ℚ) = (n : ℚ) := ⟨95, by norm_num⟩

lemma q75_int : ∃ n : ℤ, (75 : ℚ) = (n : ℚ) := ⟨75, by norm_num⟩

lemma q70_int : ∃ n : ℤ, (70 : ℚ) = (n : ℚ) := ⟨70, by norm_num⟩

lemma q0_int : ∃ n : ℤ, (0 : ℚ) = (n : ℚ) := ⟨0, by norm_num⟩

lemma qmax0sub20_int : ∃ n : ℤ, max (0 : ℚ) (0 - 20) = (n : ℚ) :=
  ⟨0, by rw [max_eq_left (by norm_num : (0 : ℚ) - 20 ≤ 0)]; norm_num⟩

lemma clamp_int (n : ℤ) :
    ∃ m : ℤ, max (0 : ℚ) (min 100 (n : ℚ)) = (m : ℚ) ∧ 0 ≤ m ∧ m ≤ 100 := by
  refine ⟨max 0 (min 100 n), ?_, ?_, ?_⟩
  · push_cast
    rfl
  · omega
  · omega

set_option maxHeartbeats 4000000 in
lemma healthSwitch_sound (parseNum : String → Option ℚ) (serviceName : String)
    (summary : JSValue) (rc : ℚ) (ns : String) :
    (∃ n : ℤ, (healthSwitch parseNum serviceName summary rc ns).1 = (n : ℚ)) ∧
      ((healthSwitch parseNum serviceName summary rc ns).2 = "success" ∨
       (healthSwitch parseNum serviceName summary rc ns).2 = "failed" ∨
       (healthSwitch parseNum serviceName summary rc ns).2 = "partial") := by
  have key : ∀ r : ℚ × String, r = healthSwitch parseNum serviceName summary rc ns →
      (∃ n : ℤ, r.1 = (n : ℚ)) ∧
        (r.2 = "success" ∨ r.2 = "failed" ∨ r.2 = "partial") := by
    intro r hr
    simp only [healthSwitch] at hr
    repeat' split at hr
    all_goals subst hr
    all_goals
      refine ⟨?_, by dsimp only; first
        | exact Or.inl rfl
        | exact Or.inr (Or.inl rfl)
        | exact Or.inr (Or.inr rfl)⟩
    all_goals dsimp only
    any_goals exact qmax0sub20_int
    any_goals exact q100_int
    any_goals exact q95_int
    any_goals exact q75_int
    any_goals exact q70_int
    any_goals exact q0_int
    any_goals exact jsRound_sub20_int _
    any_goals exact jsRound_int _
  exact key _ rfl

lemma calcWithData_early (parseNum : String → Option ℚ) (serviceName : String)
    (data : JSValue) (hf : jsFalsy (getField data "summary") = false)
    (hcond : normalizeScanStatus (getField (getField data "summary") "scan_status") = "failed" ∨
      resourceCountOf (getField data "summary") = 0) :
    calculateServiceHealth parseNum serviceName (some data) =
      ⟨if resourceCountOf (getField data "summary") = 0 then 100 else 0,
       if resourceCountOf (getField data "summary") = 0 then "success" else "failed"⟩ := by
  show calcWithData parseNum serviceName data = _
  simp only [calcWithData]
  rw [if_neg (by simp [hf]), if_pos hcond]

lemma calcWithData_switch (parseNum : String → Option ℚ) (serviceName : String)
    (data : JSValue) (hf : jsFalsy (getField data "summary") = false)
    (hns : normalizeScanStatus (getField (getField data "summary") "scan_status") ≠ "failed")
    (hrc : resourceCountOf (getField data "summary") ≠ 0) :
    calculateServiceHealth parseNum serviceName (some data) =
      ⟨max 0 (min 100 (healthSwitch parseNum serviceName (getField data "summary")
          (resourceCountOf (getField data "summary"))
          (normalizeScanStatus (getField (getField data "summary") "scan_status"))).1),
       (healthSwitch parseNum serviceName (getField data "summary")
          (resourceCountOf (getField data "summary"))
          (normalizeScanStatus (getField (getField data "summary") "scan_status"))).2⟩ := by
  show calcWithData parseNum serviceName data = _
  simp only [calcWithData]
  rw [if_neg (by simp [hf]), if_neg (by push_neg; exact ⟨hns, hrc⟩)]

lemma healthSwitch_ec2 (parseNum : String → Option ℚ) (summary : JSValue)
    (rc : ℚ) (ns : String) (dist : List (String × ℚ))
    (hdist : asNumberRecord (getField summary "state_distribution") = some dist) :
    healthSwitch parseNum "ec2" summary rc ns =
      ((if lookupQ dist "terminated" > 0 then
          max 0 ((if rc > 0 then jsRound (lookupQ dist "running" / rc * 100) else 0) - 20)
        else if rc > 0 then jsRound (lookupQ dist "running" / rc * 100) else 0),
       (if lookupQ dist "stopped" > 0 then "partial"
        else if ns = "partial" then "partial" else "success")) := by
  simp only [healthSwitch]
  rw [if_pos trivial, hdist]

lemma healthSwitch_cloudtrail (parseNum : String → Option ℚ) (summary : JSValue)
    (rc : ℚ) (ns : String)
    (ht : getNumericValue parseNum (getField summary "total_trails") = 0) :
    healthSwitch parseNum "cloudtrail" summary rc ns = (0, "failed") := by
  simp only [healthSwitch]
  rw [if_neg (by decide : ¬("cloudtrail" = "ec2")),
    if_neg (by decide : ¬("cloudtrail" = "rds")), if_pos trivial, if_pos ht]

lemma healthSwitch_ec2_none (parseNum : String → Option ℚ) (summary : JSValue)
    (rc : ℚ) (ns : String)
    (hdist : asNumberRecord (getField summary "state_distribution") = none) :
    healthSwitch parseNum "ec2" summary rc ns =
      (100, if ns = "partial" then "partial" else "success") := by
  simp only [healthSwitch]
  rw [if_pos trivial, hdist]

/-- C1: for every service name and every service payload (including the null
payload), `calculateServiceHealth` returns a `health_percent` that is an
integer between 0 and 100 inclusive, and a `scan_status` drawn from
`success`, `failed`, `partial`. -/
theorem calculateServiceHealth_bounds (parseNum : String → Option ℚ)
    (serviceName : String) (serviceData : Option JSValue) :
    (∃ n : ℤ,
        (calculateServiceHealth parseNum serviceName serviceData).healthPercent = (n : ℚ) ∧
          0 ≤ n ∧ n ≤ 100) ∧
      ((calculateServiceHealth parseNum serviceName serviceData).scanStatus = "success" ∨
       (calculateServiceHealth parseNum serviceName serviceData).scanStatus = "failed" ∨
       (calculateServiceHealth parseNum serviceName serviceData).scanStatus = "partial") := by
  cases serviceData with
  | none =>
      exact ⟨⟨0, rfl, by norm_num, by norm_num⟩, Or.inr (Or.inl rfl)⟩
  | some data =>
      have hc : calculateServiceHealth parseNum serviceName (some data) =
          calcWithData parseNum serviceName data := rfl
      rw [hc]
      simp only [calcWithData]
      by_cases hf : jsFalsy (getField data "summary") = true
      · simp only [if_pos hf]
        exact ⟨⟨0, by norm_num, by norm_num, by norm_num⟩, by tauto⟩
      · simp only [if_neg hf]
        by_cases he :
            normalizeScanStatus (getField (getField data "summary") "scan_status") = "failed" ∨
              resourceCountOf (getField data "summary") = 0
        · simp only [if_pos he]
          rcases eq_or_ne (resourceCountOf (getField data "summary")) 0 with h | h
          · simp only [if_pos h]
            exact ⟨⟨100, by norm_num, by norm_num, by norm_num⟩, by tauto⟩
          · simp only [if_neg h]
            exact ⟨⟨0, by norm_num, by norm_num, by norm_num⟩, by tauto⟩
        · simp only [if_neg he]
          obtain ⟨⟨n, hn⟩, hst⟩ :=
            healthSwitch_sound parseNum serviceName (getField data "summary")
              (resourceCountOf (getField data "summary"))
              (normalizeScanStatus (getField (getField data "summary") "scan_status"))
          refine ⟨?_, hst⟩
          rw [hn]
          exact clamp_int n

/-- C2: a summary that reports `resource_count` equal to the number 0 scores
100/success, for every service name, every declared scan status, and every
other summary content. -/
theorem zeroResources_scores_perfect (parseNum : String → Option ℚ)
    (serviceName : String) (data : JSValue)
    (hf : jsFalsy (getField data "summary") = false)
    (h0 : getField (getField data "summary") "resource_count" = JSValue.num 0) :
    calculateServiceHealth parseNum serviceName (some data) = ⟨100, "success"⟩ := by
  have hrc : resourceCountOf (getField data "summary") = 0 := by
    simp [resourceCountOf, h0]
  rw [calcWithData_early parseNum serviceName data hf (Or.inr hrc), if_pos hrc, if_pos hrc]

/-- Concrete payload: zero resources together with a declared failed status. -/
def zeroResourcesData : JSValue :=
  .obj [("summary", .obj [("resource_count", .num 0), ("scan_status", .str "failed")])]

/-- Witness for C2 at a concrete payload (declared status failed). -/
theorem zeroResources_scores_perfect_witness :
    jsFalsy (getField zeroResourcesData "summary") = false ∧
      getField (getField zeroResourcesData "summary") "resource_count" = JSValue.num 0 ∧
      calculateServiceHealth (fun _ => none) "ec2" (some zeroResourcesData) =
        ⟨100, "success"⟩ :=
  ⟨rfl, rfl, zeroResources_scores_perfect (fun _ => none) "ec2" zeroResourcesData rfl rfl⟩

/-- Concrete ec2 payload: declared status partial, one running resource,
stopped = 0, terminated = 0. -/
def ec2PartialData : JSValue :=
  .obj [("summary", .obj [
    ("resource_count", .num 1), ("scan_status", .str "partial"),
    ("state_distribution", .obj [
      ("running", .num 1), ("stopped", .num 0), ("terminated", .num 0)])])]

/-- C3 counterexample: on `ec2PartialData` the state distribution has
`stopped = 0`, yet the returned scan status is `partial` (inherited from the
declared status), where the claim ("scan_status becomes partial exactly when
stopped > 0") predicts `success`. -/
theorem ec2_partialStatus_counterexample :
    asNumberRecord (getField (getField ec2PartialData "summary") "state_distribution") =
        some [("running", 1), ("stopped", 0), ("terminated", 0)] ∧
      lookupQ [("running", (1 : ℚ)), ("stopped", 0), ("terminated", 0)] "stopped" = 0 ∧
      calculateServiceHealth (fun _ => none) "ec2" (some ec2PartialData) =
        ⟨100, "partial"⟩ := by
  refine ⟨rfl, rfl, ?_⟩
  have hns : normalizeScanStatus (getField (getField ec2PartialData "summary")
      "scan_status") = "partial" := by decide
  have hrc : resourceCountOf (getField ec2PartialData "summary") = 1 := rfl
  rw [calcWithData_switch (fun _ => none) "ec2" ec2PartialData rfl
      (by rw [hns]; decide) (by rw [hrc]; norm_num),
    healthSwitch_ec2 (fun _ => none) (getField ec2PartialData "summary")
      (resourceCountOf (getField ec2PartialData "summary"))
      (normalizeScanStatus (getField (getField ec2PartialData "summary") "scan_status"))
      [("running", 1), ("stopped", 0), ("terminated", 0)] rfl]
  have hl1 : lookupQ [("running", (1 : ℚ)), ("stopped", 0), ("terminated", 0)]
      "running" = 1 := rfl
  have hl2 : lookupQ [("running", (1 : ℚ)), ("stopped", 0), ("terminated", 0)]
      "stopped" = 0 := rfl
  have hl3 : lookupQ [("running", (1 : ℚ)), ("stopped", 0), ("terminated", 0)]
      "terminated" = 0 := rfl
  rw [hns, hrc, hl1, hl2, hl3]
  norm_num [jsRound]

/-- C3 (amended): for ec2 with a non-failed declared status, a positive
numeric resource count and a numeric state distribution, the health is
`round(running / resource_count * 100)`, reduced by 20 and floored at 0 when
`terminated > 0` (then clamped), and the scan status is `partial` exactly when
`stopped > 0` or the declared status normalizes to `partial`. -/
theorem ec2_stateDistribution_score (parseNum : String → Option ℚ)
    (data : JSValue) (dist : List (String × ℚ))
    (hf : jsFalsy (getField data "summary") = false)
    (hns : normalizeScanStatus (getField (getField data "summary") "scan_status") ≠ "failed")
    (hrcpos : resourceCountOf (getField data "summary") > 0)
    (hdist : asNumberRecord (getField (getField data "summary") "state_distribution") =
      some dist) :
    calculateServiceHealth parseNum "ec2" (some data) =
      ⟨max 0 (min 100 (if lookupQ dist "terminated" > 0 then
          max 0 (jsRound (lookupQ dist "running" /
            resourceCountOf (getField data "summary") * 100) - 20)
        else jsRound (lookupQ dist "running" /
          resourceCountOf (getField data "summary") * 100))),
       if lookupQ dist "stopped" > 0 ∨
           normalizeScanStatus (getField (getField data "summary") "scan_status") = "partial"
         then "partial" else "success"⟩ := by
  have hrc : resourceCountOf (getField data "summary") ≠ 0 := ne_of_gt hrcpos
  rw [calcWithData_switch parseNum "ec2" data hf hns hrc,
    healthSwitch_ec2 parseNum (getField data "summary") _ _ dist hdist]
  dsimp only
  simp only [if_pos hrcpos]
  by_cases hst : lookupQ dist "stopped" > 0
  · simp [hst]
  · by_cases hp :
        normalizeScanStatus (getField (getField data "summary") "scan_status") = "partial"
    · simp [hst, hp]
    · simp [hst, hp]

/-- Concrete ec2 payload for Scenario B: resource count 8, declared success,
running 5, stopped 0, terminated 3. -/
def ec2ScenarioBData : JSValue :=
  .obj [("summary", .obj [
    ("resource_count", .num 8), ("scan_status", .str "success"),
    ("state_distribution", .obj [
      ("running", .num 5), ("stopped", .num 0), ("terminated", .num 3)])])]

/-- Witness for the amended C3 at Scenario B: round(5/8*100) = 63, minus 20
gives health 43 with status success. -/
theorem ec2_stateDistribution_score_witness :
    resourceCountOf (getField ec2ScenarioBData "summary") > 0 ∧
      calculateServiceHealth (fun _ => none) "ec2" (some ec2ScenarioBData) =
        ⟨43, "success"⟩ := by
  have hrc : resourceCountOf (getField ec2ScenarioBData "summary") = 8 := rfl
  have hpos : resourceCountOf (getField ec2ScenarioBData "summary") > 0 := by
    rw [hrc]; norm_num
  refine ⟨hpos, ?_⟩
  have hns : normalizeScanStatus (getField (getField ec2ScenarioBData "summary")
      "scan_status") = "success" := by decide
  rw [ec2_stateDistribution_score (fun _ => none) ec2ScenarioBData
    [("running", 5), ("stopped", 0), ("terminated", 3)] rfl (by rw [hns]; decide) hpos rfl]
  have hl1 : lookupQ [("running", (5 : ℚ)), ("stopped", 0), ("terminated", 3)]
      "running" = 5 := rfl
  have hl2 : lookupQ [("running", (5 : ℚ)), ("stopped", 0), ("terminated", 3)]
      "stopped" = 0 := rfl
  have hl3 : lookupQ [("running", (5 : ℚ)), ("stopped", 0), ("terminated", 3)]
      "terminated" = 3 := rfl
  rw [hns, hrc, hl1, hl2, hl3]
  norm_num [jsRound]
  decide

/-- Concrete ec2 payload with a successful scan, five resources, and no
`state_distribution` fact at all. -/
def ec2MissingFactsData : JSValue :=
  .obj [("summary", .obj [("resource_count", .num 5), ("scan_status", .str "success")])]

/-- C4 counterexample: for ec2 with all required facts absent (no
state distribution), the code keeps the default score 100/success; the claim
predicts 0/failed. -/
theorem missingFacts_default_counterexample :
    asNumberRecord (getField (getField ec2MissingFactsData "summary")
        "state_distribution") = none ∧
      calculateServiceHealth (fun _ => none) "ec2" (some ec2MissingFactsData) =
        ⟨100, "success"⟩ ∧
      calculateServiceHealth (fun _ => none) "ec2" (some ec2MissingFactsData) ≠
        ⟨0, "failed"⟩ := by
  have hns : normalizeScanStatus (getField (getField ec2MissingFactsData "summary")
      "scan_status") = "success" := by decide
  have hrc : resourceCountOf (getField ec2MissingFactsData "summary") = 5 := rfl
  have hmain : calculateServiceHealth (fun _ => none) "ec2" (some ec2MissingFactsData) =
      ⟨100, "success"⟩ := by
    rw [calcWithData_switch (fun _ => none) "ec2" ec2MissingFactsData rfl
        (by rw [hns]; decide) (by rw [hrc]; norm_num),
      healthSwitch_ec2_none (fun _ => none) (getField ec2MissingFactsData "summary")
        (resourceCountOf (getField ec2MissingFactsData "summary"))
        (normalizeScanStatus (getField (getField ec2MissingFactsData "summary")
          "scan_status")) rfl]
    rw [hns]
    norm_num
    decide
  refine ⟨rfl, hmain, ?_⟩
  rw [hmain]
  simp only [ne_eq, HealthResult.mk.injEq, not_and]
  intro h1
  exact absurd h1 (by norm_num)

/-- C4 (amended): with a non-falsy summary and a nonzero numeric resource
count, a declared scan status normalizing to failed scores 0/failed; but when
the declared status is not failed and the facts a heuristic needs are absent
(e.g. ec2 without a numeric state distribution), the defaults stand — health
100 and the status inherited from the declared status — rather than 0/failed.
(When the resource count is 0 or non-numeric the zero-resource rule wins with
100/success, see C2.) -/
theorem failedOrMissingFacts_score (parseNum : String → Option ℚ)
    (serviceName : String) (data : JSValue)
    (hf : jsFalsy (getField data "summary") = false)
    (hrcn : resourceCountOf (getField data "summary") ≠ 0) :
    (normalizeScanStatus (getField (getField data "summary") "scan_status") = "failed" →
      calculateServiceHealth parseNum serviceName (some data) = ⟨0, "failed"⟩) ∧
    (normalizeScanStatus (getField (getField data "summary") "scan_status") ≠ "failed" →
      asNumberRecord (getField (getField data "summary") "state_distribution") = none →
      calculateServiceHealth parseNum "ec2" (some data) =
        ⟨100,
         if normalizeScanStatus (getField (getField data "summary") "scan_status") =
            "partial" then "partial" else "success"⟩) := by
  constructor
  · intro hns
    rw [calcWithData_early parseNum serviceName data hf (Or.inl hns),
      if_neg hrcn, if_neg hrcn]
  · intro hns hdist
    rw [calcWithData_switch parseNum "ec2" data hf hns hrcn,
      healthSwitch_ec2_none parseNum (getField data "summary")
        (resourceCountOf (getField data "summary"))
        (normalizeScanStatus (getField (getField data "summary") "scan_status")) hdist]
    simp only [HealthResult.mk.injEq]
    constructor
    · norm_num
    · trivial

/-- Concrete payload with three resources and a declared failed status. -/
def failedStatusData : JSValue :=
  .obj [("summary", .obj [("resource_count", .num 3), ("scan_status", .str "failed")])]

/-- Witness for the amended C4: both conjuncts applied at concrete payloads
(declared failed with 3 resources; ec2 with missing facts). -/
theorem failedOrMissingFacts_score_witness :
    jsFalsy (getField failedStatusData "summary") = false ∧
      resourceCountOf (getField failedStatusData "summary") ≠ 0 ∧
      calculateServiceHealth (fun _ => none) "s3" (some failedStatusData) =
        ⟨0, "failed"⟩ ∧
      calculateServiceHealth (fun _ => none) "ec2" (some ec2MissingFactsData) =
        ⟨100, "success"⟩ := by
  have h3 : resourceCountOf (getField failedStatusData "summary") = 3 := rfl
  have h5 : resourceCountOf (getField ec2MissingFactsData "summary") = 5 := rfl
  refine ⟨rfl, by rw [h3]; norm_num, ?_, ?_⟩
  · exact (failedOrMissingFacts_score (fun _ => none) "s3" failedStatusData rfl
      (by rw [h3]; norm_num)).1 (by decide)
  · have h := (failedOrMissingFacts_score (fun _ => none) "ec2" ec2MissingFactsData rfl
      (by rw [h5]; norm_num)).2 (by decide) rfl
    rw [h]
    have hns : normalizeScanStatus (getField (getField ec2MissingFactsData "summary")
        "scan_status") = "success" := by decide
    rw [hns]
    decide

/-- Concrete cloudtrail payload: zero trails AND zero resources, declared
success. -/
def cloudtrailZeroResourcesData : JSValue :=
  .obj [("summary", .obj [("resource_count", .num 0), ("total_trails", .num 0),
    ("scan_status", .str "success")])]

/-- C5 counterexample: a cloudtrail summary with `total_trails = 0` but
`resource_count = 0` scores 100/success (the zero-resource rule runs first),
not the 0/failed the claim predicts "regardless of any other reported
field". -/
theorem cloudtrail_zeroResources_counterexample :
    getField (getField cloudtrailZeroResourcesData "summary") "total_trails" =
        JSValue.num 0 ∧
      calculateServiceHealth (fun _ => none) "cloudtrail"
          (some cloudtrailZeroResourcesData) = ⟨100, "success"⟩ ∧
      calculateServiceHealth (fun _ => none) "cloudtrail"
          (some cloudtrailZeroResourcesData) ≠ ⟨0, "failed"⟩ := by
  have hrc : resourceCountOf (getField cloudtrailZeroResourcesData "summary") = 0 := rfl
  have hmain : calculateServiceHealth (fun _ => none) "cloudtrail"
      (some cloudtrailZeroResourcesData) = ⟨100, "success"⟩ := by
    rw [calcWithData_early (fun _ => none) "cloudtrail" cloudtrailZeroResourcesData rfl
      (Or.inr hrc), if_pos hrc, if_pos hrc]
  refine ⟨rfl, hmain, ?_⟩
  rw [hmain]
  simp only [ne_eq, HealthResult.mk.injEq, not_and]
  intro h1
  exact absurd h1 (by norm_num)

/-- C5 (amended): cloudtrail with `total_trails` reported as the number 0 and
a nonzero numeric `resource_count` scores 0/failed regardless of every other
reported field, including the declared scan status. -/
theorem cloudtrail_zeroTrails_score (parseNum : String → Option ℚ)
    (data : JSValue)
    (hf : jsFalsy (getField data "summary") = false)
    (hrcn : resourceCountOf (getField data "summary") ≠ 0)
    (ht : getField (getField data "summary") "total_trails" = JSValue.num 0) :
    calculateServiceHealth parseNum "cloudtrail" (some data) = ⟨0, "failed"⟩ := by
  have ht' : getNumericValue parseNum (getField (getField data "summary")
      "total_trails") = 0 := by rw [ht]; rfl
  by_cases hns :
      normalizeScanStatus (getField (getField data "summary") "scan_status") = "failed"
  · rw [calcWithData_early parseNum "cloudtrail" data hf (Or.inl hns),
      if_neg hrcn, if_neg hrcn]
  · rw [calcWithData_switch parseNum "cloudtrail" data hf hns hrcn,
      healthSwitch_cloudtrail parseNum (getField data "summary")
        (resourceCountOf (getField data "summary"))
        (normalizeScanStatus (getField (getField data "summary") "scan_status")) ht']
    simp only [HealthResult.mk.injEq]
    constructor
    · norm_num
    · trivial

/-- Concrete cloudtrail payload: zero trails, two resources, declared
success. -/
def cloudtrailZeroTrailsData : JSValue :=
  .obj [("summary", .obj [("resource_count", .num 2), ("total_trails", .num 0),
    ("scan_status", .str "success")])]

/-- Witness for the amended C5 at a concrete payload. -/
theorem cloudtrail_zeroTrails_score_witness :
    jsFalsy (getField cloudtrailZeroTrailsData "summary") = false ∧
      resourceCountOf (getField cloudtrailZeroTrailsData "summary") ≠ 0 ∧
      calculateServiceHealth (fun _ => none) "cloudtrail"
        (some cloudtrailZeroTrailsData) = ⟨0, "failed"⟩ := by
  have hrc : resourceCountOf (getField cloudtrailZeroTrailsData "summary") = 2 := rfl
  refine ⟨rfl, by rw [hrc]; norm_num, ?_⟩
  exact cloudtrail_zeroTrails_score (fun _ => none) cloudtrailZeroTrailsData rfl
    (by rw [hrc]; norm_num) rfl

/-- C6: for every resource list and every specified region code, a region
filter that would drop all records is discarded (the full list is returned);
consequently the result is empty only when the input list is empty. -/
theorem filterResourcesByRegion_never_empties (resources : List JSValue)
    (regionCode : String) :
    ((resources.filter fun r => matchesRegion r regionCode) = [] →
      filterResourcesByRegion resources (some regionCode) = resources) ∧
    (filterResourcesByRegion resources (some regionCode) = [] → resources = []) := by
  constructor
  · intro hempty
    simp only [filterResourcesByRegion]
    split
    · rfl
    · rw [hempty]
      simp
  · intro hres
    simp only [filterResourcesByRegion] at hres
    by_cases h1 : regionCode = "" ∨ resources.isEmpty = true
    · rwa [if_pos h1] at hres
    · rw [if_neg h1] at hres
      by_cases h2 : (resources.filter fun r => matchesRegion r regionCode).isEmpty = true
      · rwa [if_pos h2] at hres
      · rw [if_neg h2] at hres
        exact absurd (by rw [hres]; rfl) h2

/-- A one-record resource list carrying region us-east-1. -/
def regionWitnessResources : List JSValue := [.obj [("region", .str "us-east-1")]]

/-- Witness for C6: filtering the us-east-1 record by eu-west-1 would drop
everything, so the full list comes back; and on the empty list the result is
empty. -/
theorem filterResourcesByRegion_never_empties_witness :
    (regionWitnessResources.filter fun r => matchesRegion r "eu-west-1") = [] ∧
      filterResourcesByRegion regionWitnessResources (some "eu-west-1") =
        regionWitnessResources ∧
      filterResourcesByRegion [] (some "eu-west-1") = [] := by
  have hf : (regionWitnessResources.filter fun r => matchesRegion r "eu-west-1") = [] := rfl
  refine ⟨hf, (filterResourcesByRegion_never_empties regionWitnessResources "eu-west-1").1 hf, ?_⟩
  have h2 := (filterResourcesByRegion_never_empties [] "eu-west-1").1 rfl
  exact h2

/-- C7: `getNumericValue` is a total function and never raises: a number
passes through unchanged, a string that parses to a finite number yields the
parsed value, and every other input — a string with a non-finite parse,
null, undefined, booleans, arrays, objects — yields 0. -/
theorem getNumericValue_total (parseNum : String → Option ℚ) :
    (∀ q : ℚ, getNumericValue parseNum (.num q) = q) ∧
    (∀ s q, parseNum s = some q → getNumericValue parseNum (.str s) = q) ∧
    (∀ s, parseNum s = none → getNumericValue parseNum (.str s) = 0) ∧
    getNumericValue parseNum .null = 0 ∧
    getNumericValue parseNum .undefined = 0 ∧
    (∀ b, getNumericValue parseNum (.bool b) = 0) ∧
    (∀ l, getNumericValue parseNum (.arr l) = 0) ∧
    (∀ fields, getNumericValue parseNum (.obj fields) = 0) := by
  refine ⟨fun q => rfl, fun s q h => ?_, fun s h => ?_, rfl, rfl,
    fun b => rfl, fun l => rfl, fun fields => rfl⟩
  · simp [getNumericValue, h]
  · simp [getNumericValue, h]

/-- A concrete parse function: only the string 42 parses finitely. -/
def parseNumEx : String → Option ℚ := fun s => if s = "42" then some 42 else none

/-- Witness for C7 at concrete inputs. -/
theorem getNumericValue_total_witness :
    parseNumEx "42" = some 42 ∧ parseNumEx "abc" = none ∧
      getNumericValue parseNumEx (.str "42") = 42 ∧
      getNumericValue parseNumEx (.str "abc") = 0 ∧
      getNumericValue parseNumEx (.num 7) = 7 ∧
      getNumericValue parseNumEx .null = 0 := by
  have h := getNumericValue_total parseNumEx
  have h42 : parseNumEx "42" = some 42 := rfl
  have habc : parseNumEx "abc" = none := rfl
  exact ⟨h42, habc, h.2.1 "42" 42 h42, h.2.2.1 "abc" habc, h.1 7, h.2.2.2.1⟩

/-- C10: `normalizeScanStatus` maps every input to one of the three statuses;
strings are lowercased before matching (mixed-case statuses normalize to their
lowercase forms); every string whose lowercase form is unrecognized —
including the internal fallback marker fallback_data — and every non-string
input normalizes to "failed". -/
theorem normalizeScanStatus_normalizes :
    (∀ v : JSValue, normalizeScanStatus v = "success" ∨
      normalizeScanStatus v = "failed" ∨ normalizeScanStatus v = "partial") ∧
    normalizeScanStatus (.str "Success") = "success" ∧
    normalizeScanStatus (.str "FAILED") = "failed" ∧
    normalizeScanStatus (.str "Partial") = "partial" ∧
    (∀ s : String, jsToLower s ≠ "success" → jsToLower s ≠ "failed" →
      jsToLower s ≠ "partial" → normalizeScanStatus (.str s) = "failed") ∧
    normalizeScanStatus (.str "fallback_data") = "failed" ∧
    (∀ v : JSValue, (∀ s, v ≠ .str s) → normalizeScanStatus v = "failed") := by
  refine ⟨?_, by decide, by decide, by decide, ?_, by decide, ?_⟩
  · intro v
    cases v with
    | str s =>
        simp only [normalizeScanStatus]
        split
        · exact Or.inl rfl
        · split
          · exact Or.inr (Or.inl rfl)
          · split
            · exact Or.inr (Or.inr rfl)
            · exact Or.inr (Or.inl rfl)
    | null => exact Or.inr (Or.inl rfl)
    | undefined => exact Or.inr (Or.inl rfl)
    | bool b => exact Or.inr (Or.inl rfl)
    | num q => exact Or.inr (Or.inl rfl)
    | arr l => exact Or.inr (Or.inl rfl)
    | obj fields => exact Or.inr (Or.inl rfl)
  · intro s h1 h2 h3
    simp only [normalizeScanStatus]
    rw [if_neg h1, if_neg h2, if_neg h3]
  · intro v hv
    cases v with
    | str s => exact absurd rfl (hv s)
    | null => rfl
    | undefined => rfl
    | bool b => rfl
    | num q => rfl
    | arr l => rfl
    | obj fields => rfl

/-- Witness for C10: the hypothesis-bearing conjuncts applied at the concrete
string bogus and the concrete non-string input 3. -/
theorem normalizeScanStatus_normalizes_witness :
    jsToLower "bogus" ≠ "success" ∧
      normalizeScanStatus (.str "bogus") = "failed" ∧
      normalizeScanStatus (.num 3) = "failed" := by
  have h := normalizeScanStatus_normalizes
  refine ⟨by decide, ?_, ?_⟩
  · exact h.2.2.2.2.1 "bogus" (by decide) (by decide) (by decide)
  · exact h.2.2.2.2.2.2 (.num 3) (fun s hs => JSValue.noConfusion hs)

lemma categoryEntry_key (services : String → List String)
    (counts : String → String → ℚ) (c : String) (x : ServiceCategoryR)
    (h : categoryEntry services counts c = some x) :
    x.key = c ∧ x.services = (services c).filter fun s => counts c s > 0 := by
  simp only [categoryEntry] at h
  split at h
  · exact absurd h (by simp)
  · split at h
    · exact absurd h (by simp)
    · injection h with h2
      subst h2
      exact ⟨rfl, rfl⟩

lemma categoryEntry_none (services : String → List String)
    (counts : String → String → ℚ) (cat : String)
    (h : services cat = [] ∨ ∀ s ∈ services cat, counts cat s = 0) :
    categoryEntry services counts cat = none := by
  simp only [categoryEntry]
  rcases h with h | h
  · rw [if_pos (by rw [h]; rfl)]
  · by_cases he : (services cat).isEmpty = true
    · rw [if_pos he]
    · rw [if_neg he]
      have hfil : ((services cat).filter fun s => counts cat s > 0) = [] :=
        List.filter_eq_nil_iff.mpr fun a ha => by simp [h a ha]
      rw [if_pos (by rw [hfil]; rfl)]

lemma filterMap_entry_sublist (services : String → List String)
    (counts : String → String → ℚ) :
    ∀ l : List String,
      List.Sublist ((l.filterMap (categoryEntry services counts)).map (·.key)) l := by
  intro l
  induction l with
  | nil => simp
  | cons c l ih =>
      rw [List.filterMap_cons]
      cases hfc : categoryEntry services counts c with
      | none => exact List.Sublist.cons c ih
      | some x =>
          rw [List.map_cons, (categoryEntry_key services counts c x hfc).1]
          exact List.Sublist.cons₂ c ih

/-- C8: the categories `getServiceCategories` emits follow the fixed
`categoryOrder` list (their keys form a sublist of it — neither alphabetical
nor insertion order); every service with a non-positive resource count is
omitted from its category; and every category with no declared services, or
whose services all have zero resources, is omitted entirely. -/
theorem getServiceCategories_ordering_and_omission
    (services : String → List String) (counts : String → String → ℚ) :
    List.Sublist ((getServiceCategories services counts).map (·.key)) categoryOrder ∧
    (∀ c ∈ getServiceCategories services counts, ∀ s ∈ c.services,
      counts c.key s > 0) ∧
    (∀ cat, (services cat = [] ∨ ∀ s ∈ services cat, counts cat s = 0) →
      cat ∉ (getServiceCategories services counts).map (·.key)) := by
  refine ⟨filterMap_entry_sublist services counts categoryOrder, ?_, ?_⟩
  · intro c hc s hs
    obtain ⟨a, _, hfa⟩ := List.mem_filterMap.mp hc
    obtain ⟨hkey, hsvc⟩ := categoryEntry_key services counts a c hfa
    rw [hsvc] at hs
    rw [hkey]
    have hp := List.of_mem_filter hs
    simpa using hp
  · intro cat hcat hmem
    simp only [List.mem_map] at hmem
    obtain ⟨c, hc, hkey⟩ := hmem
    obtain ⟨a, _, hfa⟩ := List.mem_filterMap.mp hc
    have hk := (categoryEntry_key services counts a c hfa).1
    rw [hk] at hkey
    rw [hkey] at hfa
    rw [categoryEntry_none services counts cat hcat] at hfa
    exact Option.noConfusion hfa

/-- Concrete category layout: compute owns ec2 and lambda, storage owns ebs. -/
def servicesEx : String → List String := fun c =>
  if c = "compute" then ["ec2", "lambda"]
  else if c = "storage" then ["ebs"]
  else []

/-- Concrete resource counts: only compute/ec2 has resources. -/
def countsEx : String → String → ℚ := fun c s =>
  if c = "compute" ∧ s = "ec2" then 3 else 0

/-- Witness for C8: at the concrete layout, the emitted compute category keeps
only ec2 (count 3 > 0), and storage — whose only service has zero resources —
is omitted. -/
theorem getServiceCategories_ordering_and_omission_witness :
    countsEx "compute" "ec2" > 0 ∧
      "storage" ∉ (getServiceCategories servicesEx countsEx).map (·.key) := by
  have h := getServiceCategories_ordering_and_omission servicesEx countsEx
  constructor
  · have hres : getServiceCategories servicesEx countsEx =
        [⟨"compute", ["ec2"], 0 + 3⟩] := rfl
    have hc : (⟨"compute", ["ec2"], (0 + 3 : ℚ)⟩ : ServiceCategoryR) ∈
        getServiceCategories servicesEx countsEx := by
      rw [hres]
      exact List.mem_singleton_self _
    have hpos := h.2.1 ⟨"compute", ["ec2"], 0 + 3⟩ hc "ec2" (List.mem_singleton_self _)
    simpa using hpos
  · refine h.2.2 "storage" (Or.inr ?_)
    intro s hs
    have hsvc : servicesEx "storage" = ["ebs"] := rfl
    rw [hsvc] at hs
    simp only [List.mem_singleton] at hs
    subst hs
    rfl

lemma foldl_addToSummary_savings (rs : List LambdaOptimization) :
    ∀ acc : OptimizationSummary,
      (rs.foldl addToSummary acc).potential_monthly_savings =
        acc.potential_monthly_savings + (rs.map (·.potential_savings)).sum := by
  induction rs with
  | nil => intro acc; simp
  | cons r rs ih =>
      intro acc
      rw [List.foldl_cons, ih, List.map_cons, List.sum_cons]
      simp only [addToSummary]
      ring

/-- C9: the potential_monthly_savings of the OptimizationSummary a workload
(lambda) service emits equals, exactly, the arithmetic sum of the per-resource
optimization potential_savings over all analyzed resources of the service. -/
theorem optimizationSummary_sum_invariant (fns : List FnMetrics) :
    (analyzeService fns).2.potential_monthly_savings =
      ((analyzeService fns).1.map (·.potential_savings)).sum := by
  show (buildOptimizationSummary (fns.map analyzeFunction)).potential_monthly_savings =
    ((fns.map analyzeFunction).map (·.potential_savings)).sum
  rw [buildOptimizationSummary, foldl_addToSummary_savings]
  simp [emptySummary]
